import Mathlib

/-!
Shallow embedding of the podcast-growth-agent episode acquisition and
transcript-resolution pipeline (src/features/rss_ingest.py), together with
proofs about the frozen claims on its specification.

External collaborators (HTTP download, the speech-to-text engine) are modelled
as oracle functions in an `Env`; the filesystem is an explicit association
list of written files; uncaught Python exceptions are modelled as the error
case of `Except Unit`.
-/

namespace Podcast

/-- Python `pat in s` substring test on strings. -/
def strContains (s pat : String) : Bool :=
  s.data.tails.any (fun t => pat.data.isPrefixOf t)

/-- Python `s.endswith(pat)`. -/
def strEndsWith (s pat : String) : Bool :=
  pat.data.isSuffixOf s.data

/-- The maximal run of decimal digits at the head of the list: the greedy
digit scan that the regex quantifier performs at a match position. -/
def leadingDigits : List Char → List Char
  | [] => []
  | c :: cs => if c.isDigit then c :: leadingDigits cs else []

/-- Attempt to match the regex pattern id followed by one or more digits at
the head of the list, returning the captured digit run on success. -/
def idDigitsAt : List Char → Option (List Char)
  | c1 :: c2 :: rest =>
    if c1 = 'i' ∧ c2 = 'd' then
      match leadingDigits rest with
      | [] => none
      | c :: ds => some (c :: ds)
    else none
  | _ => none

/-- Embedding of Python `re.search` with the pattern id followed by a
captured run of one or more digits: try each position left to right and
return the first (leftmost) match's captured digits. -/
def reSearchIdDigits : List Char → Option (List Char)
  | [] => none
  | c :: cs =>
    match idDigitsAt (c :: cs) with
    | some ds => some ds
    | none => reSearchIdDigits cs

/-- Embedding of `resolve_feed_url` from src/features/rss_ingest.py. -/
def resolve_feed_url (user_input : String) : Option String :=
  if strContains user_input "podcasts.apple.com" then
    match reSearchIdDigits user_input.data with
    | some podcast_id =>
      some ("https://podcasts.apple.com/rss/podcast/" ++ String.mk podcast_id ++ ".xml")
    | none => none
  else if strEndsWith user_input ".xml" || strContains user_input "rss" then
    some user_input
  else
    none

/-- One element of a feedparser entry's content list: a dict that may carry
a value field. -/
structure ContentItem where
  value : Option String
deriving DecidableEq, Repr

/-- A feedparser entry as the pipeline reads it: title, enclosure hrefs,
optional content list, optional summary. -/
structure Entry where
  title : String
  enclosures : List String
  content : Option (List ContentItem)
  summary : Option String
deriving DecidableEq, Repr

/-- Python `a or b` on strings: the left operand when it is truthy
(non-empty), otherwise the right operand. -/
def pyOr (a b : String) : String :=
  if a = "" then b else a

/-- Embedding of the line
`entry.get("content", [{}])[0].get("value", "") or entry.get("summary", "")`.
`none` is the uncaught IndexError raised when the content key is present but
holds an empty list. -/
def transcriptTextOf (e : Entry) : Option String :=
  match e.content.getD [ContentItem.mk none] with
  | [] => none
  | item :: _ => some (pyOr (item.value.getD "") (e.summary.getD ""))

/-- View an empty string as an absent value, per the spec's rule that an
empty string is treated as absent. -/
def strToOpt (s : String) : Option String :=
  if s = "" then none else some s

/-- The entry's content value as raw data: the value of the first content
item when the content list is present and non-empty. -/
def entryContentValue (e : Entry) : Option String :=
  match e.content with
  | some (item :: _) => item.value
  | _ => none

/-- Modelled from the spec: embeddedTranscript = first of (entry content
value) else (entry summary), else absent, with the empty string treated as
absent in either field. -/
def specEmbedded (e : Entry) : Option String :=
  (strToOpt ((entryContentValue e).getD "")).orElse
    (fun _ => strToOpt (e.summary.getD ""))

/-- Python single-character `s.replace(old, new)`: substitute every
occurrence of the character. -/
def pyReplaceChar (s : String) (old new : Char) : String :=
  String.mk (s.data.map (fun c => if c = old then new else c))

/-- Embedding of `entry.title.replace(" ", "_").replace("/", "-")`. -/
def sanitizeTitle (t : String) : String :=
  pyReplaceChar (pyReplaceChar t ' ' '_') '/' '-'

/-- Modelled from the spec: the episode title with every space replaced by
underscore and every slash replaced by hyphen, in one pass. -/
def specSanitize (t : String) : String :=
  String.mk (t.data.map (fun c => if c = ' ' then '_' else if c = '/' then '-' else c))

/-- The filesystem as the ordered list of writes, newest first. -/
abbrev FS : Type := List (String × String)

/-- Write a file: record the path and its full new content. -/
def fsWrite (fs : FS) (p t : String) : FS :=
  (p, t) :: fs

/-- Read a file: the most recent write to the path, if any. -/
def fsGet (fs : FS) (p : String) : Option String :=
  ((fs : List (String × String)).find? (fun q => q.1 == p)).map Prod.snd

/-- The external collaborators: HTTP byte download and the speech-to-text
engine, which either returns a transcript or fails with a message. -/
structure Env where
  http : String → String
  stt : String → Except String String

/-- Observable pipeline events: an audio download, a speech-to-text call,
a file write. -/
inductive Event where
  | downloadAudio (url : String) (path : String)
  | sttCall (path : String)
  | writeFile (path : String) (text : String)
deriving DecidableEq, Repr

/-- Per-episode outcome vocabulary of the specification. -/
inductive TranscriptOutcome where
  | SavedFromFeed (path : String)
  | SavedFromAudio (path : String)
  | AudioMissing
  | TranscriptionFailed (reason : String)
deriving DecidableEq, Repr

/-- Embedding of `os.path.join` for the two-component paths the code builds. -/
def pathJoin (a b : String) : String :=
  a ++ "/" ++ b

/-- The downloads directory name. -/
def downloadsDir : String := "downloads"

/-- `os.path.join(downloads_dir, title + "_transcript.txt")`. -/
def transcriptPath (title : String) : String :=
  pathJoin downloadsDir (title ++ "_transcript.txt")

/-- `os.path.join(downloads_dir, title + ".mp3")`. -/
def audioPath (title : String) : String :=
  pathJoin downloadsDir (title ++ ".mp3")

/-- Embedding of `transcribe_audio`: open the saved audio file and hand its
bytes to the speech-to-text collaborator. -/
def transcribe_audio (env : Env) (fs : FS) (file_path : String) : Except String String :=
  match fsGet fs file_path with
  | none => Except.error "No such file"
  | some bytes => env.stt bytes

/-- One iteration of the loop body of `download_episodes_from_rss` for a
single entry: the outcome, the filesystem after the iteration, and the
events the iteration performs, or `Except.error ()` for an uncaught
exception. -/
def processEpisode (env : Env) (fs : FS) (entry : Entry) :
    Except Unit (TranscriptOutcome × FS × List Event) :=
  match transcriptTextOf entry with
  | none => Except.error ()
  | some transcript_text =>
    if transcript_text = "" then
      match entry.enclosures.head? with
      | some url =>
        match transcribe_audio env
            (fsWrite fs (audioPath (sanitizeTitle entry.title)) (env.http url))
            (audioPath (sanitizeTitle entry.title)) with
        | Except.ok whisper_transcript =>
          Except.ok (TranscriptOutcome.SavedFromAudio (transcriptPath (sanitizeTitle entry.title)),
            fsWrite (fsWrite fs (audioPath (sanitizeTitle entry.title)) (env.http url))
              (transcriptPath (sanitizeTitle entry.title)) whisper_transcript,
            [Event.downloadAudio url (audioPath (sanitizeTitle entry.title)),
             Event.writeFile (audioPath (sanitizeTitle entry.title)) (env.http url),
             Event.sttCall (audioPath (sanitizeTitle entry.title)),
             Event.writeFile (transcriptPath (sanitizeTitle entry.title)) whisper_transcript])
        | Except.error e =>
          Except.ok (TranscriptOutcome.TranscriptionFailed e,
            fsWrite fs (audioPath (sanitizeTitle entry.title)) (env.http url),
            [Event.downloadAudio url (audioPath (sanitizeTitle entry.title)),
             Event.writeFile (audioPath (sanitizeTitle entry.title)) (env.http url),
             Event.sttCall (audioPath (sanitizeTitle entry.title))])
      | none => Except.ok (TranscriptOutcome.AudioMissing, fs, [])
    else
      Except.ok (TranscriptOutcome.SavedFromFeed (transcriptPath (sanitizeTitle entry.title)),
        fsWrite fs (transcriptPath (sanitizeTitle entry.title)) transcript_text,
        [Event.writeFile (transcriptPath (sanitizeTitle entry.title)) transcript_text])

/-- The loop of `download_episodes_from_rss` over the selected entries:
threads the filesystem, collects the per-episode outcomes in input order and
the concatenated event trace, and propagates an uncaught exception. -/
def runEpisodes (env : Env) : FS → List Entry →
    Except Unit (List (Entry × TranscriptOutcome) × FS × List Event)
  | fs, [] => Except.ok ([], fs, [])
  | fs, e :: rest =>
    match processEpisode env fs e with
    | Except.error u => Except.error u
    | Except.ok x =>
      match runEpisodes env x.2.1 rest with
      | Except.error u => Except.error u
      | Except.ok y => Except.ok ((e, x.1) :: y.1, y.2.1, x.2.2 ++ y.2.2)

/-- The default value of the `limit` parameter in the source. -/
def defaultLimit : Nat := 3

/-- Embedding of `download_episodes_from_rss`: truncate the parsed entries
to the first `limit` and run the per-episode loop. -/
def download_episodes_from_rss (env : Env) (fs : FS) (entries : List Entry) (limit : Nat) :
    Except Unit (List (Entry × TranscriptOutcome) × FS × List Event) :=
  runEpisodes env fs (entries.take limit)

/-- A call of `download_episodes_from_rss` that omits `limit`, as the main
scripts do. -/
def download_episodes_from_rss_default (env : Env) (fs : FS) (entries : List Entry) :
    Except Unit (List (Entry × TranscriptOutcome) × FS × List Event) :=
  download_episodes_from_rss env fs entries defaultLimit

/-! ### Concrete fixtures used by the witness theorems -/

/-- An environment whose speech-to-text collaborator always succeeds. -/
def testEnvOk : Env :=
  Env.mk (fun _ => "AUDIOBYTES") (fun _ => Except.ok "TRANSCRIPT")

/-- An environment whose speech-to-text collaborator always fails. -/
def testEnvFail : Env :=
  Env.mk (fun _ => "AUDIOBYTES") (fun _ => Except.error "boom")

/-- An entry with no embedded transcript and no enclosure. -/
def entryNoAudio : Entry :=
  Entry.mk "Ep A" [] none none

/-- An entry with no embedded transcript and one enclosure. -/
def entryAudio : Entry :=
  Entry.mk "Ep B" ["http://x/a.mp3"] none none

/-- An entry with an embedded transcript in its summary and a title that
needs sanitizing. -/
def entryFeed : Entry :=
  Entry.mk "Ep C/1" [] none (some "hello world")

/-- An entry whose content value is the empty string while its summary is
non-empty. -/
def entryEmptyContent : Entry :=
  Entry.mk "Ep D" [] (some [ContentItem.mk (some "")]) (some "sum")

/-! ### Lemmas about the regex search embedding -/

theorem reSearch_cons (c : Char) (cs : List Char) :
    reSearchIdDigits (c :: cs) =
      match idDigitsAt (c :: cs) with
      | some ds => some ds
      | none => reSearchIdDigits cs := rfl

theorem leadingDigits_append (d b : List Char)
    (hdig : ∀ c ∈ d, c.isDigit = true)
    (hb : ∀ c, b.head? = some c → c.isDigit = false) :
    leadingDigits (d ++ b) = d := by
  induction d with
  | nil =>
    cases b with
    | nil => rfl
    | cons c cs => simp [leadingDigits, hb c rfl]
  | cons c cs ih =>
    have hc : c.isDigit = true := hdig c (by simp)
    have ih2 := ih (fun x hx => hdig x (by simp [hx]))
    simp [List.cons_append, leadingDigits, hc, ih2]

theorem idDigitsAt_of_decomp (d b : List Char) (hd : d ≠ [])
    (hdig : ∀ c ∈ d, c.isDigit = true)
    (hb : ∀ c, b.head? = some c → c.isDigit = false) :
    idDigitsAt ('i' :: 'd' :: (d ++ b)) = some d := by
  obtain ⟨c, cs, rfl⟩ := List.exists_cons_of_ne_nil hd
  have hld : leadingDigits (c :: (cs ++ b)) = c :: cs := by
    have h := leadingDigits_append (c :: cs) b hdig hb
    simpa using h
  simp [idDigitsAt, hld]

theorem reSearch_append_of_no_match (a t : List Char)
    (h : ∀ i, i < a.length → idDigitsAt (List.drop i (a ++ t)) = none) :
    reSearchIdDigits (a ++ t) = reSearchIdDigits t := by
  induction a with
  | nil => rfl
  | cons x a ih =>
    have h0 : idDigitsAt (x :: (a ++ t)) = none := by
      have := h 0 (by simp)
      simpa using this
    rw [List.cons_append, reSearch_cons, h0]
    exact ih (fun i hi => by
      have := h (i + 1) (by simpa using Nat.succ_lt_succ hi)
      simpa using this)

theorem reSearch_of_decomp (a d b : List Char) (hd : d ≠ [])
    (hdig : ∀ c ∈ d, c.isDigit = true)
    (hb : ∀ c, b.head? = some c → c.isDigit = false)
    (hfirst : ∀ i, i < a.length →
      idDigitsAt (List.drop i (a ++ 'i' :: 'd' :: (d ++ b))) = none) :
    reSearchIdDigits (a ++ 'i' :: 'd' :: (d ++ b)) = some d := by
  rw [reSearch_append_of_no_match a _ hfirst, reSearch_cons,
    idDigitsAt_of_decomp d b hd hdig hb]

theorem reSearch_none_of_no_match (l : List Char)
    (h : ∀ i, idDigitsAt (List.drop i l) = none) :
    reSearchIdDigits l = none := by
  induction l with
  | nil => rfl
  | cons c cs ih =>
    have h0 : idDigitsAt (c :: cs) = none := by simpa using h 0
    rw [reSearch_cons, h0]
    exact ih (fun i => by simpa using h (i + 1))

/-! ### Claims C3, C4, C5: the feed URL resolver -/

/-- Claim C3: for every locator containing podcasts.apple.com in which the
pattern id followed by one or more digits occurs, resolve returns exactly
https://podcasts.apple.com/rss/podcast/ followed by the digits and .xml,
where the digits are the first (leftmost, maximal) run of digits following
the literal prefix id.  The decomposition hypotheses pin that run: the
locator splits as a, then id, then the all-digit run d, then a remainder b
not starting with a digit, and no id-digit match starts inside a. -/
theorem resolve_apple_id_url (s : String) (a d b : List Char)
    (hs : s.data = a ++ 'i' :: 'd' :: (d ++ b))
    (hd : d ≠ [])
    (hdig : ∀ c ∈ d, c.isDigit = true)
    (hb : ∀ c, b.head? = some c → c.isDigit = false)
    (hfirst : ∀ i, i < a.length → idDigitsAt (List.drop i s.data) = none)
    (happle : strContains s "podcasts.apple.com" = true) :
    resolve_feed_url s =
      some ("https://podcasts.apple.com/rss/podcast/" ++ String.mk d ++ ".xml") := by
  rw [hs] at hfirst
  unfold resolve_feed_url
  rw [happle]
  simp only [if_true, hs, reSearch_of_decomp a d b hd hdig hb hfirst]

/-- Witness for C3 on the concrete locator podcasts.apple.com/id7. -/
theorem resolve_apple_id_url_witness :
    resolve_feed_url "podcasts.apple.com/id7" =
      some ("https://podcasts.apple.com/rss/podcast/" ++ String.mk ['7'] ++ ".xml") :=
  resolve_apple_id_url "podcasts.apple.com/id7" ("podcasts.apple.com/".data) ['7'] []
    (by decide) (by decide) (by decide) (by decide) (by decide) (by decide)

/-- Counterexample to Claim C4 as stated: the locator
https://podcasts.apple.com/rss contains rss, yet resolve does not return it
unchanged (the podcasts.apple.com branch is checked first and fails to find
an id-digit pattern, so the result is none). -/
theorem resolve_passthrough_counterexample :
    strContains "https://podcasts.apple.com/rss" "rss" = true ∧
    resolve_feed_url "https://podcasts.apple.com/rss" ≠
      some "https://podcasts.apple.com/rss" := by
  constructor
  · decide
  · decide

/-- Claim C4 (amended): for every locator that does not contain
podcasts.apple.com and that ends with .xml or contains rss, resolve returns
the locator unchanged. -/
theorem resolve_passthrough (s : String)
    (hna : strContains s "podcasts.apple.com" = false)
    (h : strEndsWith s ".xml" = true ∨ strContains s "rss" = true) :
    resolve_feed_url s = some s := by
  unfold resolve_feed_url
  rw [hna]
  rcases h with h | h <;> simp [h]

/-- Witness for the amended C4 on the concrete locator http://x/feed.xml. -/
theorem resolve_passthrough_witness :
    resolve_feed_url "http://x/feed.xml" = some "http://x/feed.xml" :=
  resolve_passthrough "http://x/feed.xml" (by decide) (Or.inl (by decide))

/-- Claim C5: resolve returns none (and, being a total function, raises
nothing) both for a locator matching no pattern at all and for a locator
containing podcasts.apple.com in which no id-digit pattern occurs at any
position. -/
theorem resolve_unresolvable (s : String)
    (h : (strContains s "podcasts.apple.com" = false ∧
            strEndsWith s ".xml" = false ∧ strContains s "rss" = false) ∨
         (strContains s "podcasts.apple.com" = true ∧
            ∀ i, idDigitsAt (List.drop i s.data) = none)) :
    resolve_feed_url s = none := by
  unfold resolve_feed_url
  rcases h with ⟨h1, h2, h3⟩ | ⟨h1, h2⟩
  · simp [h1, h2, h3]
  · rw [h1]
    simp only [if_true, reSearch_none_of_no_match s.data h2]

/-- Witness for C5 on the concrete locator hello. -/
theorem resolve_unresolvable_witness :
    resolve_feed_url "hello" = none :=
  resolve_unresolvable "hello" (Or.inl (by decide))

/-! ### Lemmas about sanitization, the filesystem and the episode loop -/

theorem replaceChar_map_comp (l : List Char) :
    (l.map (fun c => if c = ' ' then '_' else c)).map (fun c => if c = '/' then '-' else c) =
      l.map (fun c => if c = ' ' then '_' else if c = '/' then '-' else c) := by
  induction l with
  | nil => rfl
  | cons c cs ih =>
    simp only [List.map_cons, ih, List.cons.injEq, and_true]
    by_cases h1 : c = ' '
    · simp [h1]
    · by_cases h2 : c = '/' <;> simp [h1, h2]

theorem sanitizeTitle_eq_specSanitize (t : String) : sanitizeTitle t = specSanitize t := by
  unfold sanitizeTitle specSanitize pyReplaceChar
  exact congrArg String.mk (replaceChar_map_comp t.data)

theorem fsGet_write_self (fs : FS) (p t : String) :
    fsGet (fsWrite fs p t) p = some t := by
  simp [fsGet, fsWrite, List.find?_cons]

theorem fsGet_write_of_ne (fs : FS) (p q t : String) (h : q ≠ p) :
    fsGet (fsWrite fs p t) q = fsGet fs q := by
  have hpq : (p == q) = false := by
    simp [Ne.symm h]
  simp [fsGet, fsWrite, List.find?_cons, hpq]

theorem transcriptPath_ne_audioPath (t : String) :
    transcriptPath t ≠ audioPath t := by
  intro h
  have hl := congrArg String.length h
  simp only [transcriptPath, audioPath, pathJoin, String.length_append] at hl
  have e1 : String.length "_transcript.txt" = 15 := rfl
  have e2 : String.length ".mp3" = 4 := rfl
  rw [e1, e2] at hl
  omega

theorem runEpisodes_nil (env : Env) (fs : FS) :
    runEpisodes env fs [] = Except.ok ([], fs, []) := rfl

theorem runEpisodes_cons (env : Env) (fs : FS) (e : Entry) (rest : List Entry) :
    runEpisodes env fs (e :: rest) =
      match processEpisode env fs e with
      | Except.error u => Except.error u
      | Except.ok x =>
        match runEpisodes env x.2.1 rest with
        | Except.error u => Except.error u
        | Except.ok y => Except.ok ((e, x.1) :: y.1, y.2.1, x.2.2 ++ y.2.2) := rfl

theorem runEpisodes_outcomes_entries (env : Env) (fs : FS) (entries : List Entry)
    (outs : List (Entry × TranscriptOutcome)) (fs2 : FS) (ev : List Event)
    (h : runEpisodes env fs entries = Except.ok (outs, fs2, ev)) :
    outs.map Prod.fst = entries := by
  induction entries generalizing fs outs fs2 ev with
  | nil =>
    rw [runEpisodes_nil] at h
    simp only [Except.ok.injEq, Prod.mk.injEq] at h
    rw [← h.1]
    rfl
  | cons e rest ih =>
    rw [runEpisodes_cons] at h
    cases hp : processEpisode env fs e with
    | error u => rw [hp] at h; exact absurd h (by simp)
    | ok x =>
      rw [hp] at h
      dsimp only at h
      cases hr : runEpisodes env x.2.1 rest with
      | error u => rw [hr] at h; exact absurd h (by simp)
      | ok y =>
        rw [hr] at h
        simp only [Except.ok.injEq, Prod.mk.injEq] at h
        obtain ⟨h1, h2, h3⟩ := h
        rw [← h1]
        simp only [List.map_cons]
        rw [ih x.2.1 y.1 y.2.1 y.2.2 hr]

theorem strToOpt_pyOr (a b : String) :
    strToOpt (pyOr a b) = (strToOpt a).orElse (fun _ => strToOpt b) := by
  by_cases h : a = "" <;> simp [pyOr, strToOpt, h, Option.orElse]

/-! ### Claims C1, C2, C6, C7, C8, C9, C10: the episode pipeline -/

/-- Claim C1: for every episode whose embedded transcript is non-empty, the
pipeline performs no audio download and no transcription call, and writes the
embedded transcript verbatim to downloads/<title>_transcript.txt, with every
space of the title replaced by underscore and every slash by hyphen; the
written file's content equals the embedded transcript exactly. -/
theorem feed_transcript_short_circuit (env : Env) (fs : FS) (e : Entry) (t : String)
    (htt : transcriptTextOf e = some t) (hne : t ≠ "") :
    processEpisode env fs e =
      Except.ok (TranscriptOutcome.SavedFromFeed (transcriptPath (specSanitize e.title)),
        fsWrite fs (transcriptPath (specSanitize e.title)) t,
        [Event.writeFile (transcriptPath (specSanitize e.title)) t]) ∧
    fsGet (fsWrite fs (transcriptPath (specSanitize e.title)) t)
        (transcriptPath (specSanitize e.title)) = some t ∧
    (∀ u p, Event.downloadAudio u p ∉
        [Event.writeFile (transcriptPath (specSanitize e.title)) t]) ∧
    (∀ p, Event.sttCall p ∉
        [Event.writeFile (transcriptPath (specSanitize e.title)) t]) := by
  refine ⟨?_, fsGet_write_self _ _ _, by simp, by simp⟩
  simp only [processEpisode, htt, sanitizeTitle_eq_specSanitize]
  rw [if_neg hne]

/-- Witness for C1 on a concrete entry whose summary holds the transcript. -/
theorem feed_transcript_short_circuit_witness :
    processEpisode testEnvOk [] entryFeed =
      Except.ok (TranscriptOutcome.SavedFromFeed (transcriptPath (specSanitize entryFeed.title)),
        fsWrite [] (transcriptPath (specSanitize entryFeed.title)) "hello world",
        [Event.writeFile (transcriptPath (specSanitize entryFeed.title)) "hello world"]) ∧
    fsGet (fsWrite [] (transcriptPath (specSanitize entryFeed.title)) "hello world")
        (transcriptPath (specSanitize entryFeed.title)) = some "hello world" ∧
    (∀ u p, Event.downloadAudio u p ∉
        [Event.writeFile (transcriptPath (specSanitize entryFeed.title)) "hello world"]) ∧
    (∀ p, Event.sttCall p ∉
        [Event.writeFile (transcriptPath (specSanitize entryFeed.title)) "hello world"]) :=
  feed_transcript_short_circuit testEnvOk [] entryFeed "hello world" (by decide) (by decide)

/-- Claim C2: a transcription-collaborator failure is caught per episode and
not raised: the outcome is TranscriptionFailed carrying the underlying error
message, the downloaded audio file remains on disk, and the batch continues
with the remaining episodes exactly as it would from the post-failure
filesystem state. -/
theorem transcription_failure_isolated (env : Env) (fs : FS) (e : Entry)
    (rest : List Entry) (url msg : String)
    (htt : transcriptTextOf e = some "")
    (hurl : e.enclosures.head? = some url)
    (herr : env.stt (env.http url) = Except.error msg) :
    processEpisode env fs e =
      Except.ok (TranscriptOutcome.TranscriptionFailed msg,
        fsWrite fs (audioPath (sanitizeTitle e.title)) (env.http url),
        [Event.downloadAudio url (audioPath (sanitizeTitle e.title)),
         Event.writeFile (audioPath (sanitizeTitle e.title)) (env.http url),
         Event.sttCall (audioPath (sanitizeTitle e.title))]) ∧
    fsGet (fsWrite fs (audioPath (sanitizeTitle e.title)) (env.http url))
        (audioPath (sanitizeTitle e.title)) = some (env.http url) ∧
    runEpisodes env fs (e :: rest) =
      Except.map (fun y => ((e, TranscriptOutcome.TranscriptionFailed msg) :: y.1, y.2.1,
          [Event.downloadAudio url (audioPath (sanitizeTitle e.title)),
           Event.writeFile (audioPath (sanitizeTitle e.title)) (env.http url),
           Event.sttCall (audioPath (sanitizeTitle e.title))] ++ y.2.2))
        (runEpisodes env (fsWrite fs (audioPath (sanitizeTitle e.title)) (env.http url)) rest) := by
  have htr : transcribe_audio env
      (fsWrite fs (audioPath (sanitizeTitle e.title)) (env.http url))
      (audioPath (sanitizeTitle e.title)) = Except.error msg := by
    simp [transcribe_audio, fsGet_write_self, herr]
  have hproc : processEpisode env fs e =
      Except.ok (TranscriptOutcome.TranscriptionFailed msg,
        fsWrite fs (audioPath (sanitizeTitle e.title)) (env.http url),
        [Event.downloadAudio url (audioPath (sanitizeTitle e.title)),
         Event.writeFile (audioPath (sanitizeTitle e.title)) (env.http url),
         Event.sttCall (audioPath (sanitizeTitle e.title))]) := by
    simp [processEpisode, htt, hurl, htr]
  refine ⟨hproc, fsGet_write_self _ _ _, ?_⟩
  rw [runEpisodes_cons, hproc]
  dsimp only
  cases hr : runEpisodes env (fsWrite fs (audioPath (sanitizeTitle e.title)) (env.http url)) rest with
  | error u => simp [Except.map]
  | ok y => simp [Except.map]

/-- Witness for C2 on a concrete failing environment and one audio entry. -/
theorem transcription_failure_isolated_witness :
    processEpisode testEnvFail [] entryAudio =
      Except.ok (TranscriptOutcome.TranscriptionFailed "boom",
        fsWrite [] (audioPath (sanitizeTitle entryAudio.title))
          (testEnvFail.http "http://x/a.mp3"),
        [Event.downloadAudio "http://x/a.mp3" (audioPath (sanitizeTitle entryAudio.title)),
         Event.writeFile (audioPath (sanitizeTitle entryAudio.title))
           (testEnvFail.http "http://x/a.mp3"),
         Event.sttCall (audioPath (sanitizeTitle entryAudio.title))]) ∧
    fsGet (fsWrite [] (audioPath (sanitizeTitle entryAudio.title))
          (testEnvFail.http "http://x/a.mp3"))
        (audioPath (sanitizeTitle entryAudio.title)) = some (testEnvFail.http "http://x/a.mp3") ∧
    runEpisodes testEnvFail [] (entryAudio :: [entryNoAudio]) =
      Except.map (fun y => ((entryAudio, TranscriptOutcome.TranscriptionFailed "boom") :: y.1, y.2.1,
          [Event.downloadAudio "http://x/a.mp3" (audioPath (sanitizeTitle entryAudio.title)),
           Event.writeFile (audioPath (sanitizeTitle entryAudio.title))
             (testEnvFail.http "http://x/a.mp3"),
           Event.sttCall (audioPath (sanitizeTitle entryAudio.title))] ++ y.2.2))
        (runEpisodes testEnvFail
          (fsWrite [] (audioPath (sanitizeTitle entryAudio.title))
            (testEnvFail.http "http://x/a.mp3")) [entryNoAudio]) :=
  transcription_failure_isolated testEnvFail [] entryAudio [entryNoAudio]
    "http://x/a.mp3" "boom" (by decide) rfl rfl

/-- Claim C6: the embedded transcript is the first non-empty of the entry
content value and the entry summary, with empty string treated as absent;
stated for entries whose content field, when present, is a non-empty list,
which is what the feed parser produces. -/
theorem embedded_transcript_first_nonempty (e : Entry) (h : e.content ≠ some []) :
    ∃ t, transcriptTextOf e = some t ∧ strToOpt t = specEmbedded e := by
  cases hc : e.content with
  | none =>
    refine ⟨pyOr "" (e.summary.getD ""), by simp [transcriptTextOf, hc], ?_⟩
    rw [strToOpt_pyOr]
    simp [specEmbedded, entryContentValue, hc]
  | some l =>
    cases l with
    | nil => exact absurd hc h
    | cons item rest =>
      refine ⟨pyOr (item.value.getD "") (e.summary.getD ""),
        by simp [transcriptTextOf, hc], ?_⟩
      rw [strToOpt_pyOr]
      simp [specEmbedded, entryContentValue, hc]

/-- Witness for C6 on an entry with empty content value and non-empty
summary, which yields the summary. -/
theorem embedded_transcript_first_nonempty_witness :
    ∃ t, transcriptTextOf entryEmptyContent = some t ∧
      strToOpt t = specEmbedded entryEmptyContent :=
  embedded_transcript_first_nonempty entryEmptyContent (by decide)

/-- Claim C7: for an episode with no embedded transcript and no audio URL,
no files are written, no events occur, and the outcome is AudioMissing. -/
theorem audio_missing_no_files (env : Env) (fs : FS) (e : Entry)
    (htt : transcriptTextOf e = some "") (henc : e.enclosures = []) :
    processEpisode env fs e = Except.ok (TranscriptOutcome.AudioMissing, fs, []) := by
  simp [processEpisode, htt, henc]

/-- Witness for C7 on a concrete entry without transcript or enclosure. -/
theorem audio_missing_no_files_witness :
    processEpisode testEnvOk [] entryNoAudio =
      Except.ok (TranscriptOutcome.AudioMissing, [], []) :=
  audio_missing_no_files testEnvOk [] entryNoAudio rfl rfl

/-- Claim C8: the batch processes exactly the first min(N, limit) parsed
entries in source order, and a call omitting the limit uses the default
limit 3. -/
theorem batch_truncation_and_default (env : Env) (fs : FS) (entries : List Entry)
    (limit : Nat) (outs : List (Entry × TranscriptOutcome)) (fs2 : FS) (ev : List Event)
    (h : download_episodes_from_rss env fs entries limit = Except.ok (outs, fs2, ev)) :
    outs.map Prod.fst = entries.take limit ∧
    outs.length = min limit entries.length ∧
    download_episodes_from_rss_default env fs entries =
      download_episodes_from_rss env fs entries 3 := by
  have h1 : outs.map Prod.fst = entries.take limit :=
    runEpisodes_outcomes_entries env fs (entries.take limit) outs fs2 ev h
  refine ⟨h1, ?_, rfl⟩
  have h2 := congrArg List.length h1
  simpa [List.length_take] using h2

/-- Witness for C8: two entries, limit one. -/
theorem batch_truncation_and_default_witness :
    ([(entryFeed, TranscriptOutcome.SavedFromFeed "downloads/Ep_C-1_transcript.txt")].map Prod.fst
        = [entryFeed, entryNoAudio].take 1) ∧
    [(entryFeed, TranscriptOutcome.SavedFromFeed "downloads/Ep_C-1_transcript.txt")].length
        = min 1 [entryFeed, entryNoAudio].length ∧
    download_episodes_from_rss_default testEnvOk [] [entryFeed, entryNoAudio] =
      download_episodes_from_rss testEnvOk [] [entryFeed, entryNoAudio] 3 :=
  batch_truncation_and_default testEnvOk [] [entryFeed, entryNoAudio] 1
    [(entryFeed, TranscriptOutcome.SavedFromFeed "downloads/Ep_C-1_transcript.txt")]
    [("downloads/Ep_C-1_transcript.txt", "hello world")]
    [Event.writeFile "downloads/Ep_C-1_transcript.txt" "hello world"]
    rfl

/-- Claim C9: every successful run returns one (entry, outcome) pair per
processed episode, in input order, whatever the outcome kinds are. -/
theorem driver_returns_all_outcomes (env : Env) (fs : FS) (entries : List Entry)
    (outs : List (Entry × TranscriptOutcome)) (fs2 : FS) (ev : List Event)
    (h : runEpisodes env fs entries = Except.ok (outs, fs2, ev)) :
    outs.map Prod.fst = entries ∧ outs.length = entries.length := by
  have h1 := runEpisodes_outcomes_entries env fs entries outs fs2 ev h
  refine ⟨h1, ?_⟩
  have h2 := congrArg List.length h1
  simpa using h2

/-- Witness for C9 on a one-entry batch. -/
theorem driver_returns_all_outcomes_witness :
    ([(entryNoAudio, TranscriptOutcome.AudioMissing)].map Prod.fst = [entryNoAudio]) ∧
    [(entryNoAudio, TranscriptOutcome.AudioMissing)].length = [entryNoAudio].length :=
  driver_returns_all_outcomes testEnvOk [] [entryNoAudio]
    [(entryNoAudio, TranscriptOutcome.AudioMissing)] [] [] rfl

/-- Claim C10: when the transcription collaborator fails, no transcript file
is written for that episode: whatever the failing iteration returns, the
transcript path's content is unchanged and the iteration's event trace holds
no write to the transcript path. -/
theorem failed_transcription_writes_no_transcript (env : Env) (fs : FS) (e : Entry)
    (url msg : String) (out : TranscriptOutcome) (fs1 : FS) (ev1 : List Event)
    (htt : transcriptTextOf e = some "")
    (hurl : e.enclosures.head? = some url)
    (herr : env.stt (env.http url) = Except.error msg)
    (hrun : processEpisode env fs e = Except.ok (out, fs1, ev1)) :
    fsGet fs1 (transcriptPath (sanitizeTitle e.title)) =
      fsGet fs (transcriptPath (sanitizeTitle e.title)) ∧
    ∀ txt, Event.writeFile (transcriptPath (sanitizeTitle e.title)) txt ∉ ev1 := by
  have htr : transcribe_audio env
      (fsWrite fs (audioPath (sanitizeTitle e.title)) (env.http url))
      (audioPath (sanitizeTitle e.title)) = Except.error msg := by
    simp [transcribe_audio, fsGet_write_self, herr]
  have hproc : processEpisode env fs e =
      Except.ok (TranscriptOutcome.TranscriptionFailed msg,
        fsWrite fs (audioPath (sanitizeTitle e.title)) (env.http url),
        [Event.downloadAudio url (audioPath (sanitizeTitle e.title)),
         Event.writeFile (audioPath (sanitizeTitle e.title)) (env.http url),
         Event.sttCall (audioPath (sanitizeTitle e.title))]) := by
    simp [processEpisode, htt, hurl, htr]
  rw [hproc] at hrun
  simp only [Except.ok.injEq, Prod.mk.injEq] at hrun
  obtain ⟨h1, h2, h3⟩ := hrun
  rw [← h2, ← h3]
  have hne := transcriptPath_ne_audioPath (sanitizeTitle e.title)
  refine ⟨fsGet_write_of_ne fs _ _ _ hne, ?_⟩
  intro txt
  simp only [List.mem_cons, List.not_mem_nil, or_false]
  push_neg
  refine ⟨by simp, ?_, by simp⟩
  intro hcontra
  have := congrArg (fun ev => match ev with
    | Event.writeFile p _ => p
    | _ => "") hcontra
  exact hne this

/-- Witness for C10 on a concrete failing environment and one audio entry. -/
theorem failed_transcription_writes_no_transcript_witness :
    fsGet (fsWrite [] (audioPath (sanitizeTitle entryAudio.title))
          (testEnvFail.http "http://x/a.mp3"))
        (transcriptPath (sanitizeTitle entryAudio.title)) =
      fsGet [] (transcriptPath (sanitizeTitle entryAudio.title)) ∧
    ∀ txt, Event.writeFile (transcriptPath (sanitizeTitle entryAudio.title)) txt ∉
      [Event.downloadAudio "http://x/a.mp3" (audioPath (sanitizeTitle entryAudio.title)),
       Event.writeFile (audioPath (sanitizeTitle entryAudio.title))
         (testEnvFail.http "http://x/a.mp3"),
       Event.sttCall (audioPath (sanitizeTitle entryAudio.title))] :=
  failed_transcription_writes_no_transcript testEnvFail [] entryAudio
    "http://x/a.mp3" "boom" (TranscriptOutcome.TranscriptionFailed "boom")
    (fsWrite [] (audioPath (sanitizeTitle entryAudio.title))
      (testEnvFail.http "http://x/a.mp3"))
    [Event.downloadAudio "http://x/a.mp3" (audioPath (sanitizeTitle entryAudio.title)),
     Event.writeFile (audioPath (sanitizeTitle entryAudio.title))
       (testEnvFail.http "http://x/a.mp3"),
     Event.sttCall (audioPath (sanitizeTitle entryAudio.title))]
    (by decide) rfl rfl rfl

end Podcast
